import Mathlib

/-!
Shallow embedding of `binfile` (`src/lib.rs`): a `BinFile<MAGIC, VERSION>`
wraps a file whose first 10 bytes must be the 8-byte big-endian magic
followed by the 2-byte big-endian version.

The filesystem is modelled per-path: the file at the path under discussion is
`Option (List Nat)` (`none` = no such file), a byte being a `Nat < 256`.  A
handle (`File`) is the file's contents plus a cursor; writes go straight
through to the contents, flushing is a no-op (as for `std::fs::File`).
Underlying write failures (disk full, ...) are injected through `Option Nat`
parameters (`none` = the call succeeds, `some k` = it fails with base error
code `k`), mirroring the `?` operator on each call in the source.
-/

/-- A byte string: each element is one byte. -/
abbrev Bytes := List Nat

/-- Big-endian byte encoding of `x` on `w` bytes (the last byte is `x % 256`),
as `uN::to_be_bytes` produces. -/
def to_be_bytes (w x : Nat) : Bytes :=
  match w with
  | 0 => []
  | n + 1 => to_be_bytes n (x / 256) ++ [x % 256]

/-- `u64::to_be_bytes`. -/
def u64_to_be_bytes (x : Nat) : Bytes := to_be_bytes 8 x

/-- `u16::to_be_bytes`. -/
def u16_to_be_bytes (x : Nat) : Bytes := to_be_bytes 2 x

/-- `u64::from_be_bytes`: decode a big-endian byte string. -/
def u64_from_be_bytes (bs : Bytes) : Nat := bs.foldl (fun acc b => acc * 256 + b) 0

/-- `u16::from_be_bytes`: decode a big-endian byte string. -/
def u16_from_be_bytes (bs : Bytes) : Nat := bs.foldl (fun acc b => acc * 256 + b) 0

/-- The errors of `enum BinFileError` in the source, with their fields. -/
inductive BinFileError where
  | invalidMagic (filename : String) (expected actual : Nat)
  | invalidVersion (filename : String) (expected actual : Nat)

deriving instance DecidableEq for BinFileError

/-- The `io::ErrorKind` values that can reach a caller of this library. -/
inductive ErrorKind where
  | notFound
  | alreadyExists
  | unexpectedEof
  | other
  | base (k : Nat)

deriving instance DecidableEq for ErrorKind

/-- An `io::Error` as observed through this library: either a failure of the
underlying filesystem layer, or `io::Error::other(e)` wrapping a
`BinFileError` payload `e`. -/
inductive IoError where
  | eof
  | notFound
  | alreadyExists
  | base (k : Nat)
  | other (e : BinFileError)

deriving instance DecidableEq for IoError

/-- `io::Error::kind()`. -/
def IoError.kind : IoError → ErrorKind
  | .eof => .unexpectedEof
  | .notFound => .notFound
  | .alreadyExists => .alreadyExists
  | .base k => .base k
  | .other _ => .other

/-- `io::Error::downcast::<BinFileError>()`: recover the structured payload
from an error built with `io::Error::other`. -/
def IoError.downcast_bin_file_error : IoError → Option BinFileError
  | .other e => some e
  | _ => none

/-- An open file handle: the file's byte contents and the stream position. -/
structure File where
  contents : Bytes
  pos : Nat

deriving instance DecidableEq for File

deriving instance DecidableEq for Except

/-- `Read::read_exact(buf)` for a `buf` of length `n`: succeed with the next
`n` bytes when that many remain, advancing the cursor by `n`; otherwise fail
with an unexpected-EOF error, the cursor having consumed what was available. -/
def read_exact (f : File) (n : Nat) : Except IoError Bytes × File :=
  if f.pos + n ≤ f.contents.length then
    (.ok ((f.contents.drop f.pos).take n), { f with pos := f.pos + n })
  else
    (.error .eof, { f with pos := f.contents.length })

/-- `Write::write_all(buf)`: when the injected outcome `e` is `none`, splice
`buf` into the contents at the cursor and advance it; `some k` injects an
underlying I/O failure with code `k`. -/
def write_all (e : Option Nat) (f : File) (buf : Bytes) : Except IoError File :=
  match e with
  | some k => .error (.base k)
  | none => .ok ⟨f.contents.take f.pos ++ buf ++ f.contents.drop (f.pos + buf.length),
                 f.pos + buf.length⟩

/-- `Write::flush()`: a no-op on `std::fs::File`. -/
def flush (f : File) : File := f

/-- `Read::read_to_end`: return all bytes from the cursor to the end, leaving
the cursor at the end. -/
def read_to_end (f : File) : Bytes × File :=
  (f.contents.drop f.pos, { f with pos := f.contents.length })

/-- `BinFile::check(&mut self, filename)`: read 8 bytes and compare with the
big-endian `MAGIC`, then read 2 bytes and compare with the big-endian
`VERSION`; a mismatch is reported as `io::Error::other` wrapping the
corresponding `BinFileError`.  The handle is threaded (`&mut self`). -/
def check (MAGIC VERSION : Nat) (filename : String) (f : File) :
    Except IoError Unit × File :=
  match read_exact f 8 with
  | (.error e, f) => (.error e, f)
  | (.ok magic, f) =>
    if magic ≠ u64_to_be_bytes MAGIC then
      (.error (.other (.invalidMagic filename MAGIC (u64_from_be_bytes magic))), f)
    else
      match read_exact f 2 with
      | (.error e, f) => (.error e, f)
      | (.ok version, f) =>
        if version ≠ u16_to_be_bytes VERSION then
          (.error (.other (.invalidVersion filename VERSION (u16_from_be_bytes version))), f)
        else
          (.ok (), f)

/-- `BinFile::create(path)`: `File::create` truncates (the handle starts over
empty contents), then the magic and the version are written with `write_all`.
`e0, e1, e2` inject the outcomes of the three underlying calls.  Returns the
handle and the resulting on-disk contents of the path. -/
def create (MAGIC VERSION : Nat) (e0 e1 e2 : Option Nat) :
    Except IoError File × Option Bytes :=
  match e0 with
  | some k => (.error (.base k), none)
  | none =>
    let f : File := ⟨[], 0⟩
    match write_all e1 f (u64_to_be_bytes MAGIC) with
    | .error e => (.error e, some f.contents)
    | .ok f =>
      match write_all e2 f (u16_to_be_bytes VERSION) with
      | .error e => (.error e, some f.contents)
      | .ok f => (.ok f, some f.contents)

/-- `BinFile::create_new(path)`: `File::create_new` fails with an
already-exists error when the path names a file, leaving it untouched;
otherwise it behaves as `create` on a fresh file.  `disk` is the file at the
path before the call; the second component is the file at the path after. -/
def create_new (MAGIC VERSION : Nat) (e0 e1 e2 : Option Nat) (disk : Option Bytes) :
    Except IoError File × Option Bytes :=
  match disk with
  | some c => (.error .alreadyExists, some c)
  | none =>
    match e0 with
    | some k => (.error (.base k), none)
    | none =>
      let f : File := ⟨[], 0⟩
      match write_all e1 f (u64_to_be_bytes MAGIC) with
      | .error e => (.error e, some f.contents)
      | .ok f =>
        match write_all e2 f (u16_to_be_bytes VERSION) with
        | .error e => (.error e, some f.contents)
        | .ok f => (.ok f, some f.contents)

/-- `BinFile::open(path)`: `File::open` in read-only mode (not-found when the
path names no file), then `check`.  The second component is the file at the
path after the call. -/
def open_ro (MAGIC VERSION : Nat) (path : String) (disk : Option Bytes) :
    Except IoError File × Option Bytes :=
  match disk with
  | none => (.error .notFound, none)
  | some c =>
    match check MAGIC VERSION path ⟨c, 0⟩ with
    | (.ok _, f) => (.ok f, some f.contents)
    | (.error e, f) => (.error e, some f.contents)

/-- `BinFile::open_rw(path)`: `OpenOptions::new().read(true).write(true)`
(not-found when the path names no file), then the same `check`. -/
def open_rw (MAGIC VERSION : Nat) (path : String) (disk : Option Bytes) :
    Except IoError File × Option Bytes :=
  match disk with
  | none => (.error .notFound, none)
  | some c =>
    match check MAGIC VERSION path ⟨c, 0⟩ with
    | (.ok _, f) => (.ok f, some f.contents)
    | (.error e, f) => (.error e, some f.contents)

/-! ## Basic properties of the byte codecs -/

theorem length_to_be_bytes (w x : Nat) : (to_be_bytes w x).length = w := by
  induction w generalizing x with
  | zero => rfl
  | succ n ih => simp [to_be_bytes, ih]

theorem length_u64_to_be_bytes (x : Nat) : (u64_to_be_bytes x).length = 8 :=
  length_to_be_bytes 8 x

theorem length_u16_to_be_bytes (x : Nat) : (u16_to_be_bytes x).length = 2 :=
  length_to_be_bytes 2 x

theorem from_be_to_be (w x : Nat) :
    u64_from_be_bytes (to_be_bytes w x) = x % 256 ^ w := by
  induction w generalizing x with
  | zero => simp [u64_from_be_bytes, to_be_bytes, Nat.mod_one]
  | succ n ih =>
    unfold u64_from_be_bytes at ih ⊢
    rw [to_be_bytes, List.foldl_append]
    rw [ih (x / 256)]
    simp only [List.foldl_cons, List.foldl_nil]
    rw [pow_succ, Nat.mul_comm (256 ^ n) 256, Nat.mod_mul]
    ring

theorem u64_from_to (x : Nat) (h : x < 2 ^ 64) :
    u64_from_be_bytes (u64_to_be_bytes x) = x := by
  rw [u64_to_be_bytes, from_be_to_be]
  have h8 : (256 : Nat) ^ 8 = 2 ^ 64 := by norm_num
  rw [h8]
  exact Nat.mod_eq_of_lt h

theorem u16_from_eq_u64_from : u16_from_be_bytes = u64_from_be_bytes := rfl

theorem u16_from_to (x : Nat) (h : x < 2 ^ 16) :
    u16_from_be_bytes (u16_to_be_bytes x) = x := by
  rw [u16_from_eq_u64_from, u16_to_be_bytes, from_be_to_be]
  have h2 : (256 : Nat) ^ 2 = 2 ^ 16 := by norm_num
  rw [h2]
  exact Nat.mod_eq_of_lt h

theorem u64_to_be_bytes_inj {x y : Nat} (hx : x < 2 ^ 64) (hy : y < 2 ^ 64)
    (h : u64_to_be_bytes x = u64_to_be_bytes y) : x = y := by
  have := congrArg u64_from_be_bytes h
  rwa [u64_from_to x hx, u64_from_to y hy] at this

theorem u16_to_be_bytes_inj {x y : Nat} (hx : x < 2 ^ 16) (hy : y < 2 ^ 16)
    (h : u16_to_be_bytes x = u16_to_be_bytes y) : x = y := by
  have := congrArg u16_from_be_bytes h
  rwa [u16_from_to x hx, u16_from_to y hy] at this

theorem take_u64 (M : Nat) (l : Bytes) :
    (u64_to_be_bytes M ++ l).take 8 = u64_to_be_bytes M := by
  conv_lhs => rw [show (8 : Nat) = (u64_to_be_bytes M).length from
    (length_u64_to_be_bytes M).symm]
  exact List.take_left _ _

theorem drop_u64 (M : Nat) (l : Bytes) : (u64_to_be_bytes M ++ l).drop 8 = l := by
  conv_lhs => rw [show (8 : Nat) = (u64_to_be_bytes M).length from
    (length_u64_to_be_bytes M).symm]
  exact List.drop_left _ _

theorem take_u16 (V : Nat) (l : Bytes) :
    (u16_to_be_bytes V ++ l).take 2 = u16_to_be_bytes V := by
  conv_lhs => rw [show (2 : Nat) = (u16_to_be_bytes V).length from
    (length_u16_to_be_bytes V).symm]
  exact List.take_left _ _

theorem drop_u16 (V : Nat) (l : Bytes) : (u16_to_be_bytes V ++ l).drop 2 = l := by
  conv_lhs => rw [show (2 : Nat) = (u16_to_be_bytes V).length from
    (length_u16_to_be_bytes V).symm]
  exact List.drop_left _ _

/-! ## Behaviour of `read_exact` and `check` -/

theorem read_exact_all (f : File) (n : Nat) (h : f.pos + n ≤ f.contents.length) :
    read_exact f n = (.ok ((f.contents.drop f.pos).take n), ⟨f.contents, f.pos + n⟩) := by
  unfold read_exact
  rw [if_pos h]

theorem read_exact_eof (f : File) (n : Nat) (h : f.contents.length < f.pos + n) :
    read_exact f n = (.error .eof, ⟨f.contents, f.contents.length⟩) := by
  unfold read_exact
  rw [if_neg (by omega)]

theorem check_eof_magic (M V : Nat) (path : String) (c : Bytes) (h : c.length < 8) :
    check M V path ⟨c, 0⟩ = (.error .eof, ⟨c, c.length⟩) := by
  unfold check
  rw [read_exact_eof ⟨c, 0⟩ 8 (by simpa using h)]

theorem check_bad_magic (M V : Nat) (path : String) (c : Bytes) (h8 : 8 ≤ c.length)
    (hm : c.take 8 ≠ u64_to_be_bytes M) :
    check M V path ⟨c, 0⟩ =
      (.error (.other (.invalidMagic path M (u64_from_be_bytes (c.take 8)))), ⟨c, 8⟩) := by
  unfold check
  rw [read_exact_all ⟨c, 0⟩ 8 (by simpa using h8)]
  simp only [List.drop_zero, Nat.zero_add]
  rw [if_pos hm]

theorem check_eof_version (M V : Nat) (path : String) (c : Bytes) (h8 : 8 ≤ c.length)
    (h10 : c.length < 10) (hm : c.take 8 = u64_to_be_bytes M) :
    check M V path ⟨c, 0⟩ = (.error .eof, ⟨c, c.length⟩) := by
  unfold check
  rw [read_exact_all ⟨c, 0⟩ 8 (by simpa using h8)]
  simp only [List.drop_zero, Nat.zero_add]
  rw [if_neg (by simp [hm])]
  rw [read_exact_eof ⟨c, 8⟩ 2 (by simpa using h10)]

theorem check_bad_version (M V : Nat) (path : String) (c : Bytes) (h10 : 10 ≤ c.length)
    (hm : c.take 8 = u64_to_be_bytes M) (hv : (c.drop 8).take 2 ≠ u16_to_be_bytes V) :
    check M V path ⟨c, 0⟩ =
      (.error (.other (.invalidVersion path V (u16_from_be_bytes ((c.drop 8).take 2)))),
       ⟨c, 10⟩) := by
  unfold check
  rw [read_exact_all ⟨c, 0⟩ 8 (by simp; omega)]
  simp only [List.drop_zero, Nat.zero_add]
  rw [if_neg (by simp [hm])]
  rw [read_exact_all ⟨c, 8⟩ 2 (by simp; omega)]
  simp only []
  rw [if_pos hv]

theorem check_ok_of (M V : Nat) (path : String) (c : Bytes) (h10 : 10 ≤ c.length)
    (hm : c.take 8 = u64_to_be_bytes M) (hv : (c.drop 8).take 2 = u16_to_be_bytes V) :
    check M V path ⟨c, 0⟩ = (.ok (), ⟨c, 10⟩) := by
  unfold check
  rw [read_exact_all ⟨c, 0⟩ 8 (by simp; omega)]
  simp only [List.drop_zero, Nat.zero_add]
  rw [if_neg (by simp [hm])]
  rw [read_exact_all ⟨c, 8⟩ 2 (by simp; omega)]
  simp only []
  rw [if_neg (by simp [hv])]

theorem check_contents (M V : Nat) (path : String) (c : Bytes) :
    ((check M V path ⟨c, 0⟩).2).contents = c := by
  by_cases h8 : c.length < 8
  · rw [check_eof_magic M V path c h8]
  · by_cases hm : c.take 8 = u64_to_be_bytes M
    · by_cases h10 : c.length < 10
      · rw [check_eof_version M V path c (by omega) h10 hm]
      · by_cases hv : (c.drop 8).take 2 = u16_to_be_bytes V
        · rw [check_ok_of M V path c (by omega) hm hv]
        · rw [check_bad_version M V path c (by omega) hm hv]
    · rw [check_bad_magic M V path c (by omega) hm]

/-! ## Header plumbing and `create` -/

theorem take10_header (M V : Nat) (l : Bytes) :
    (u64_to_be_bytes M ++ (u16_to_be_bytes V ++ l)).take 10 =
      u64_to_be_bytes M ++ u16_to_be_bytes V := by
  rw [← List.append_assoc]
  have h : (10 : Nat) = (u64_to_be_bytes M ++ u16_to_be_bytes V).length := by
    simp [length_u64_to_be_bytes, length_u16_to_be_bytes]
  rw [h]
  exact List.take_left _ _

theorem drop10_header (M V : Nat) (l : Bytes) :
    (u64_to_be_bytes M ++ (u16_to_be_bytes V ++ l)).drop 10 = l := by
  rw [← List.append_assoc]
  have h : (10 : Nat) = (u64_to_be_bytes M ++ u16_to_be_bytes V).length := by
    simp [length_u64_to_be_bytes, length_u16_to_be_bytes]
  rw [h]
  exact List.drop_left _ _

theorem create_ok (M V : Nat) :
    create M V none none none =
      (.ok ⟨u64_to_be_bytes M ++ u16_to_be_bytes V, 10⟩,
       some (u64_to_be_bytes M ++ u16_to_be_bytes V)) := by
  have ha : (u64_to_be_bytes M).length = 8 := length_u64_to_be_bytes M
  have hb : (u16_to_be_bytes V).length = 2 := length_u16_to_be_bytes V
  unfold create write_all
  simp [ha, hb, List.take_of_length_le, List.drop_eq_nil_of_le]

theorem create_new_ok (M V : Nat) :
    create_new M V none none none none =
      (.ok ⟨u64_to_be_bytes M ++ u16_to_be_bytes V, 10⟩,
       some (u64_to_be_bytes M ++ u16_to_be_bytes V)) := by
  have ha : (u64_to_be_bytes M).length = 8 := length_u64_to_be_bytes M
  have hb : (u16_to_be_bytes V).length = 2 := length_u16_to_be_bytes V
  unfold create_new write_all
  simp [ha, hb, List.take_of_length_le, List.drop_eq_nil_of_le]

theorem check_ok_header (M V : Nat) (path : String) (rest : Bytes) :
    check M V path ⟨u64_to_be_bytes M ++ (u16_to_be_bytes V ++ rest), 0⟩ =
      (.ok (), ⟨u64_to_be_bytes M ++ (u16_to_be_bytes V ++ rest), 10⟩) := by
  refine check_ok_of M V path _ ?_ ?_ ?_
  · simp only [List.length_append, length_u64_to_be_bytes, length_u16_to_be_bytes]
    omega
  · have h : (8 : Nat) = (u64_to_be_bytes M).length := (length_u64_to_be_bytes M).symm
    rw [h]
    exact List.take_left _ _
  · have h : (8 : Nat) = (u64_to_be_bytes M).length := (length_u64_to_be_bytes M).symm
    rw [h, List.drop_left]
    exact take_u16 V rest

theorem check_ok_inv (M V : Nat) (path : String) (c : Bytes) (f' : File)
    (h : check M V path ⟨c, 0⟩ = (.ok (), f')) :
    10 ≤ c.length ∧ c.take 8 = u64_to_be_bytes M ∧
      (c.drop 8).take 2 = u16_to_be_bytes V ∧ f' = ⟨c, 10⟩ := by
  by_cases h8 : c.length < 8
  · rw [check_eof_magic M V path c h8] at h
    exact absurd h (by simp)
  · by_cases hm : c.take 8 = u64_to_be_bytes M
    · by_cases h10 : c.length < 10
      · rw [check_eof_version M V path c (by omega) h10 hm] at h
        exact absurd h (by simp)
      · by_cases hv : (c.drop 8).take 2 = u16_to_be_bytes V
        · rw [check_ok_of M V path c (by omega) hm hv] at h
          have hf : f' = ⟨c, 10⟩ := by
            have := congrArg Prod.snd h
            simpa using this.symm
          exact ⟨by omega, hm, hv, hf⟩
        · rw [check_bad_version M V path c (by omega) hm hv] at h
          exact absurd h (by simp)
    · rw [check_bad_magic M V path c (by omega) hm] at h
      exact absurd h (by simp)

/-! ## Bridging `open`/`open_rw` to `check` -/

theorem open_rw_eq_open_ro : open_rw = open_ro := rfl

theorem open_ro_of_check_error (M V : Nat) (path : String) (c : Bytes)
    (e : IoError) (f1 : File) (h : check M V path ⟨c, 0⟩ = (.error e, f1)) :
    open_ro M V path (some c) = (.error e, some f1.contents) := by
  simp only [open_ro, h]

theorem open_ro_of_check_ok (M V : Nat) (path : String) (c : Bytes)
    (f1 : File) (h : check M V path ⟨c, 0⟩ = (.ok (), f1)) :
    open_ro M V path (some c) = (.ok f1, some f1.contents) := by
  simp only [open_ro, h]

theorem create_ok_inv (M V : Nat) (e0 e1 e2 : Option Nat) (f : File)
    (h : (create M V e0 e1 e2).1 = .ok f) :
    e0 = none ∧ e1 = none ∧ e2 = none ∧
      f = ⟨u64_to_be_bytes M ++ u16_to_be_bytes V, 10⟩ := by
  cases e0 with
  | some k => exact absurd h (by simp [create])
  | none =>
    cases e1 with
    | some k => exact absurd h (by simp [create, write_all])
    | none =>
      cases e2 with
      | some k => exact absurd h (by simp [create, write_all])
      | none =>
        rw [create_ok] at h
        exact ⟨rfl, rfl, rfl, by simpa using h.symm⟩

theorem create_new_ok_inv (M V : Nat) (e0 e1 e2 : Option Nat)
    (disk : Option Bytes) (f : File)
    (h : (create_new M V e0 e1 e2 disk).1 = .ok f) :
    disk = none ∧ e0 = none ∧ e1 = none ∧ e2 = none ∧
      f = ⟨u64_to_be_bytes M ++ u16_to_be_bytes V, 10⟩ := by
  cases disk with
  | some c => exact absurd h (by simp [create_new])
  | none =>
    cases e0 with
    | some k => exact absurd h (by simp [create_new])
    | none =>
      cases e1 with
      | some k => exact absurd h (by simp [create_new, write_all])
      | none =>
        cases e2 with
        | some k => exact absurd h (by simp [create_new, write_all])
        | none =>
          rw [create_new_ok] at h
          exact ⟨rfl, rfl, rfl, rfl, by simpa using h.symm⟩

theorem open_ro_ok_inv (M V : Nat) (path : String) (disk : Option Bytes)
    (f : File) (h : (open_ro M V path disk).1 = .ok f) :
    ∃ c, disk = some c ∧ 10 ≤ c.length ∧ c.take 8 = u64_to_be_bytes M ∧
      (c.drop 8).take 2 = u16_to_be_bytes V ∧ f = ⟨c, 10⟩ := by
  cases disk with
  | none => exact absurd h (by simp [open_ro])
  | some c =>
    refine ⟨c, rfl, ?_⟩
    rcases hc : check M V path ⟨c, 0⟩ with ⟨r, f1⟩
    simp only [open_ro, hc] at h
    cases r with
    | error e => simp at h
    | ok u =>
      simp at h
      cases u
      obtain ⟨h10, hm, hv, hf⟩ := check_ok_inv M V path c f1 hc
      exact ⟨h10, hm, hv, by rw [← h, hf]⟩

/-! ## Mismatch scenarios -/

theorem open_error_bad_magic (M1 M2 V : Nat) (path : String) (l : Bytes)
    (h1 : M1 < 2 ^ 64) (h2 : M2 < 2 ^ 64) (hne : M2 ≠ M1) :
    (open_ro M2 V path (some (u64_to_be_bytes M1 ++ l))).1 =
      .error (.other (.invalidMagic path M2 M1)) ∧
    (open_rw M2 V path (some (u64_to_be_bytes M1 ++ l))).1 =
      .error (.other (.invalidMagic path M2 M1)) := by
  have hm : (u64_to_be_bytes M1 ++ l).take 8 ≠ u64_to_be_bytes M2 := by
    rw [take_u64]
    intro hEq
    exact hne (u64_to_be_bytes_inj h1 h2 hEq).symm
  have h8 : 8 ≤ (u64_to_be_bytes M1 ++ l).length := by
    simp [length_u64_to_be_bytes]
  have hchk := check_bad_magic M2 V path (u64_to_be_bytes M1 ++ l) h8 hm
  rw [take_u64, u64_from_to M1 h1] at hchk
  rw [open_rw_eq_open_ro, open_ro_of_check_error M2 V path _ _ _ hchk]
  exact ⟨rfl, rfl⟩

theorem open_error_bad_version (M V1 V2 : Nat) (path : String) (l : Bytes)
    (hv1 : V1 < 2 ^ 16) (hv2 : V2 < 2 ^ 16) (hne : V2 ≠ V1) :
    (open_ro M V2 path (some (u64_to_be_bytes M ++ (u16_to_be_bytes V1 ++ l)))).1 =
      .error (.other (.invalidVersion path V2 V1)) ∧
    (open_rw M V2 path (some (u64_to_be_bytes M ++ (u16_to_be_bytes V1 ++ l)))).1 =
      .error (.other (.invalidVersion path V2 V1)) := by
  have hm : (u64_to_be_bytes M ++ (u16_to_be_bytes V1 ++ l)).take 8 = u64_to_be_bytes M :=
    take_u64 M _
  have hv : ((u64_to_be_bytes M ++ (u16_to_be_bytes V1 ++ l)).drop 8).take 2 ≠
      u16_to_be_bytes V2 := by
    rw [drop_u64, take_u16]
    intro hEq
    exact hne (u16_to_be_bytes_inj hv1 hv2 hEq).symm
  have h10 : 10 ≤ (u64_to_be_bytes M ++ (u16_to_be_bytes V1 ++ l)).length := by
    simp only [List.length_append, length_u64_to_be_bytes, length_u16_to_be_bytes]
    omega
  have hchk := check_bad_version M V2 path _ h10 hm hv
  rw [drop_u64, take_u16, u16_from_to V1 hv1] at hchk
  rw [open_rw_eq_open_ro, open_ro_of_check_error M V2 path _ _ _ hchk]
  exact ⟨rfl, rfl⟩

/-! ## The claims -/

/-- C1: for every magic `M`, version `V` and payload `P`, `create` followed by
writing `P` and flushing produces on-disk bytes that are exactly the 8-byte
big-endian `M`, then the 2-byte big-endian `V`, then `P`; and `open` of that
file followed by read-to-end yields exactly `P`. -/
theorem c1_round_trip (M V : Nat) (P : Bytes) (path : String) :
    ∃ f1 f2 : File,
      (create M V none none none).1 = .ok ⟨u64_to_be_bytes M ++ u16_to_be_bytes V, 10⟩ ∧
      write_all none ⟨u64_to_be_bytes M ++ u16_to_be_bytes V, 10⟩ P = .ok f1 ∧
      (flush f1).contents = u64_to_be_bytes M ++ (u16_to_be_bytes V ++ P) ∧
      (open_ro M V path (some (flush f1).contents)).1 = .ok f2 ∧
      (read_to_end f2).1 = P := by
  have hl : (u64_to_be_bytes M ++ u16_to_be_bytes V).length = 10 := by
    simp [length_u64_to_be_bytes, length_u16_to_be_bytes]
  refine ⟨⟨u64_to_be_bytes M ++ (u16_to_be_bytes V ++ P), 10 + P.length⟩,
          ⟨u64_to_be_bytes M ++ (u16_to_be_bytes V ++ P), 10⟩, ?_, ?_, rfl, ?_, ?_⟩
  · rw [create_ok]
  · unfold write_all
    simp [hl, List.take_of_length_le, List.drop_eq_nil_of_le, List.append_assoc]
  · show (open_ro M V path (some (u64_to_be_bytes M ++ (u16_to_be_bytes V ++ P)))).1 = _
    rw [open_ro_of_check_ok M V path _ _ (check_ok_header M V path P)]
  · exact drop10_header M V P

/-- C2: any handle returned successfully by `create`, `create_new`, `open` or
`open_rw` is on a file whose first 10 bytes are the 8-byte big-endian magic
followed by the 2-byte big-endian version, and its stream position is exactly
byte offset 10. -/
theorem c2_header_invariant (M V : Nat) (path : String) (disk : Option Bytes)
    (e0 e1 e2 : Option Nat) (f : File)
    (h : (create M V e0 e1 e2).1 = .ok f ∨
         (create_new M V e0 e1 e2 disk).1 = .ok f ∨
         (open_ro M V path disk).1 = .ok f ∨
         (open_rw M V path disk).1 = .ok f) :
    f.contents.take 10 = u64_to_be_bytes M ++ u16_to_be_bytes V ∧ f.pos = 10 := by
  have hdr_take : (u64_to_be_bytes M ++ u16_to_be_bytes V).take 10 =
      u64_to_be_bytes M ++ u16_to_be_bytes V := by
    apply List.take_of_length_le
    simp [length_u64_to_be_bytes, length_u16_to_be_bytes]
  rcases h with h | h | h | h
  · obtain ⟨-, -, -, hf⟩ := create_ok_inv M V e0 e1 e2 f h
    subst hf
    exact ⟨hdr_take, rfl⟩
  · obtain ⟨-, -, -, -, hf⟩ := create_new_ok_inv M V e0 e1 e2 disk f h
    subst hf
    exact ⟨hdr_take, rfl⟩
  · obtain ⟨c, -, h10, hm, hv, hf⟩ := open_ro_ok_inv M V path disk f h
    subst hf
    refine ⟨?_, rfl⟩
    show c.take 10 = _
    rw [show (10 : Nat) = 8 + 2 from rfl, List.take_add, hm, hv]
  · rw [open_rw_eq_open_ro] at h
    obtain ⟨c, -, h10, hm, hv, hf⟩ := open_ro_ok_inv M V path disk f h
    subst hf
    refine ⟨?_, rfl⟩
    show c.take 10 = _
    rw [show (10 : Nat) = 8 + 2 from rfl, List.take_add, hm, hv]

/-- Witness for C2 at magic 5, version 1, via `create`. -/
theorem c2_header_invariant_witness :
    (⟨u64_to_be_bytes 5 ++ u16_to_be_bytes 1, 10⟩ : File).contents.take 10 =
      u64_to_be_bytes 5 ++ u16_to_be_bytes 1 ∧
    (⟨u64_to_be_bytes 5 ++ u16_to_be_bytes 1, 10⟩ : File).pos = 10 :=
  c2_header_invariant 5 1 "p" none none none none
    ⟨u64_to_be_bytes 5 ++ u16_to_be_bytes 1, 10⟩ (Or.inl rfl)

/-- C3: opening a file whose first 8 bytes are the big-endian encoding of a
magic `M1` with an envelope configured for `M2 ≠ M1` fails, for both `open`
and `open_rw`, with an Invalid-Magic error carrying the path, expected `M2`,
and actual `M1` (the 8 bytes decoded big-endian). -/
theorem c3_magic_mismatch (M1 M2 V : Nat) (path : String) (rest : Bytes)
    (h1 : M1 < 2 ^ 64) (h2 : M2 < 2 ^ 64) (hne : M2 ≠ M1) :
    (open_ro M2 V path (some (u64_to_be_bytes M1 ++ rest))).1 =
      .error (.other (.invalidMagic path M2 M1)) ∧
    (open_rw M2 V path (some (u64_to_be_bytes M1 ++ rest))).1 =
      .error (.other (.invalidMagic path M2 M1)) :=
  open_error_bad_magic M1 M2 V path rest h1 h2 hne

/-- Witness for C3: an 11-byte file with magic 1 opened expecting magic 2. -/
theorem c3_magic_mismatch_witness :
    (open_ro 2 7 "f" (some (u64_to_be_bytes 1 ++ [42, 42, 42]))).1 =
      .error (.other (.invalidMagic "f" 2 1)) ∧
    (open_rw 2 7 "f" (some (u64_to_be_bytes 1 ++ [42, 42, 42]))).1 =
      .error (.other (.invalidMagic "f" 2 1)) :=
  c3_magic_mismatch 1 2 7 "f" [42, 42, 42] (by norm_num) (by norm_num) (by norm_num)

/-- C4: a file whose first 8 bytes match the configured magic but whose next 2
bytes encode a version `V1` different from the configured `V2` fails, for both
`open` and `open_rw`, with Invalid-Version carrying the path, expected `V2`
and actual `V1`; and a file mismatching the magic yields Invalid-Magic no
matter what its version bytes hold (the magic is compared first). -/
theorem c4_version_mismatch (M V1 V2 : Nat) (path : String) (rest : Bytes)
    (hv1 : V1 < 2 ^ 16) (hv2 : V2 < 2 ^ 16) (hne : V2 ≠ V1) :
    ((open_ro M V2 path
        (some (u64_to_be_bytes M ++ (u16_to_be_bytes V1 ++ rest)))).1 =
          .error (.other (.invalidVersion path V2 V1)) ∧
     (open_rw M V2 path
        (some (u64_to_be_bytes M ++ (u16_to_be_bytes V1 ++ rest)))).1 =
          .error (.other (.invalidVersion path V2 V1))) ∧
    ∀ M1 M2 : Nat, M1 < 2 ^ 64 → M2 < 2 ^ 64 → M2 ≠ M1 →
      (open_ro M2 V2 path
        (some (u64_to_be_bytes M1 ++ (u16_to_be_bytes V1 ++ rest)))).1 =
          .error (.other (.invalidMagic path M2 M1)) ∧
      (open_rw M2 V2 path
        (some (u64_to_be_bytes M1 ++ (u16_to_be_bytes V1 ++ rest)))).1 =
          .error (.other (.invalidMagic path M2 M1)) := by
  refine ⟨open_error_bad_version M V1 V2 path rest hv1 hv2 hne, ?_⟩
  intro M1 M2 h1 h2 hm
  exact open_error_bad_magic M1 M2 V2 path (u16_to_be_bytes V1 ++ rest) h1 h2 hm

/-- Witness for C4: version 1 in the file, version 2 expected, magic 9; and a
file with both fields wrong (magic 1 where 2 is expected, version 1 where 2 is
expected) reported as Invalid-Magic. -/
theorem c4_version_mismatch_witness :
    ((open_ro 9 2 "f" (some (u64_to_be_bytes 9 ++ (u16_to_be_bytes 1 ++ [3])))).1 =
        .error (.other (.invalidVersion "f" 2 1)) ∧
     (open_rw 9 2 "f" (some (u64_to_be_bytes 9 ++ (u16_to_be_bytes 1 ++ [3])))).1 =
        .error (.other (.invalidVersion "f" 2 1))) ∧
    ((open_ro 2 2 "f"
        (some (u64_to_be_bytes 1 ++ (u16_to_be_bytes 1 ++ [3])))).1 =
          .error (.other (.invalidMagic "f" 2 1)) ∧
     (open_rw 2 2 "f"
        (some (u64_to_be_bytes 1 ++ (u16_to_be_bytes 1 ++ [3])))).1 =
          .error (.other (.invalidMagic "f" 2 1))) :=
  ⟨(c4_version_mismatch 9 1 2 "f" [3] (by norm_num) (by norm_num) (by norm_num)).1,
   (c4_version_mismatch 9 1 2 "f" [3] (by norm_num) (by norm_num) (by norm_num)).2
     1 2 (by norm_num) (by norm_num) (by norm_num)⟩

/-- C5 counterexample: the file of 8 zero bytes is shorter than 10 bytes, yet
opening it with configured magic 1 (and version 1) fails with an Invalid-Magic
error, not with the generic unexpected-EOF I/O error of a short read: its
8-byte magic read completes and the comparison happens. -/
theorem c5_short_counterexample :
    (List.replicate 8 0 : Bytes).length < 10 ∧
    (open_ro 1 1 "f" (some (List.replicate 8 0))).1 =
      .error (.other (.invalidMagic "f" 1 0)) ∧
    (open_ro 1 1 "f" (some (List.replicate 8 0))).1 ≠ .error .eof ∧
    (open_rw 1 1 "f" (some (List.replicate 8 0))).1 =
      .error (.other (.invalidMagic "f" 1 0)) ∧
    (open_rw 1 1 "f" (some (List.replicate 8 0))).1 ≠ .error .eof := by
  exact ⟨by norm_num, rfl, by decide, rfl, by decide⟩

/-- C5 (amended): a file shorter than 10 bytes always fails to open; the
failure is the generic unexpected-EOF error of the short read when the file is
shorter than 8 bytes, or when it has 8 or 9 bytes whose first 8 equal the
configured magic; a file of 8 or 9 bytes whose first 8 bytes mismatch the
magic fails with Invalid-Magic instead (a completed 8-byte read is compared
before the version read).  Invalid-Version is never produced. -/
theorem c5_short_reads (M V : Nat) (path : String) (c : Bytes)
    (hlen : c.length < 10) :
    (c.length < 8 ∨ c.take 8 = u64_to_be_bytes M →
      (open_ro M V path (some c)).1 = .error .eof ∧
      (open_rw M V path (some c)).1 = .error .eof) ∧
    (8 ≤ c.length → c.take 8 ≠ u64_to_be_bytes M →
      (open_ro M V path (some c)).1 =
        .error (.other (.invalidMagic path M (u64_from_be_bytes (c.take 8)))) ∧
      (open_rw M V path (some c)).1 =
        .error (.other (.invalidMagic path M (u64_from_be_bytes (c.take 8))))) := by
  constructor
  · rintro (h8 | hm)
    · have hchk := check_eof_magic M V path c h8
      rw [open_rw_eq_open_ro, open_ro_of_check_error M V path _ _ _ hchk]
      exact ⟨rfl, rfl⟩
    · by_cases h8 : c.length < 8
      · have hchk := check_eof_magic M V path c h8
        rw [open_rw_eq_open_ro, open_ro_of_check_error M V path _ _ _ hchk]
        exact ⟨rfl, rfl⟩
      · have hchk := check_eof_version M V path c (by omega) hlen hm
        rw [open_rw_eq_open_ro, open_ro_of_check_error M V path _ _ _ hchk]
        exact ⟨rfl, rfl⟩
  · intro h8 hm
    have hchk := check_bad_magic M V path c h8 hm
    rw [open_rw_eq_open_ro, open_ro_of_check_error M V path _ _ _ hchk]
    exact ⟨rfl, rfl⟩

/-- Witness for the amended C5: the empty file and a 9-byte magic-1 file both
fail with unexpected-EOF; an 8-byte zero file with magic 1 expected fails with
Invalid-Magic. -/
theorem c5_short_reads_witness :
    ((open_ro 1 1 "f" (some ([] : Bytes))).1 = .error .eof ∧
     (open_rw 1 1 "f" (some ([] : Bytes))).1 = .error .eof) ∧
    ((open_ro 1 1 "f" (some (u64_to_be_bytes 1 ++ [0]))).1 = .error .eof ∧
     (open_rw 1 1 "f" (some (u64_to_be_bytes 1 ++ [0]))).1 = .error .eof) ∧
    ((open_ro 1 1 "f" (some (List.replicate 8 0))).1 =
        .error (.other (.invalidMagic "f" 1
          (u64_from_be_bytes ((List.replicate 8 0 : Bytes).take 8)))) ∧
     (open_rw 1 1 "f" (some (List.replicate 8 0))).1 =
        .error (.other (.invalidMagic "f" 1
          (u64_from_be_bytes ((List.replicate 8 0 : Bytes).take 8))))) :=
  ⟨(c5_short_reads 1 1 "f" [] (by norm_num)).1 (Or.inl (by norm_num)),
   (c5_short_reads 1 1 "f" (u64_to_be_bytes 1 ++ [0])
       (by simp [length_u64_to_be_bytes])).1
     (Or.inr (by rw [take_u64])),
   (c5_short_reads 1 1 "f" (List.replicate 8 0) (by norm_num)).2
     (by norm_num) (by decide)⟩

/-- C6: `create_new` on a path that already names a file fails with an
already-exists I/O error and leaves the existing file's contents
byte-for-byte unchanged, whatever the outcomes of the underlying calls would
have been. -/
theorem c6_create_new_exclusive (M V : Nat) (e0 e1 e2 : Option Nat) (c : Bytes) :
    (create_new M V e0 e1 e2 (some c)).1 = .error .alreadyExists ∧
    (IoError.alreadyExists).kind = .alreadyExists ∧
    (create_new M V e0 e1 e2 (some c)).2 = some c :=
  ⟨rfl, rfl, rfl⟩

/-- C7: `create` writes the 8-byte big-endian magic then the 2-byte big-endian
version as the very first bytes of a truncated file and returns a handle
positioned at offset 10 whenever the underlying create/truncate and the two
header writes succeed; and it fails with an underlying I/O error exactly when
one of those three underlying calls fails. -/
theorem c7_create (M V : Nat) (e0 e1 e2 : Option Nat) :
    (e0 = none ∧ e1 = none ∧ e2 = none →
      create M V e0 e1 e2 =
        (.ok ⟨u64_to_be_bytes M ++ u16_to_be_bytes V, 10⟩,
         some (u64_to_be_bytes M ++ u16_to_be_bytes V))) ∧
    (e0 ≠ none ∨ e1 ≠ none ∨ e2 ≠ none →
      ∃ k, (create M V e0 e1 e2).1 = .error (.base k)) := by
  constructor
  · rintro ⟨rfl, rfl, rfl⟩
    exact create_ok M V
  · intro h
    cases e0 with
    | some k => exact ⟨k, rfl⟩
    | none =>
      cases e1 with
      | some k => exact ⟨k, rfl⟩
      | none =>
        cases e2 with
        | some k => exact ⟨k, rfl⟩
        | none => simp at h

/-- Witness for C7: magic 5, version 1, underlying calls succeeding, and a
failing first header write. -/
theorem c7_create_witness :
    create 5 1 none none none =
      (.ok ⟨u64_to_be_bytes 5 ++ u16_to_be_bytes 1, 10⟩,
       some (u64_to_be_bytes 5 ++ u16_to_be_bytes 1)) ∧
    ∃ k, (create 5 1 none (some 3) none).1 = .error (.base k) :=
  ⟨(c7_create 5 1 none none none).1 ⟨rfl, rfl, rfl⟩,
   (c7_create 5 1 none (some 3) none).2 (Or.inr (Or.inl (by simp)))⟩

/-- C10: `open` and `open_rw` never change the on-disk bytes: whether they
succeed or fail, the file at the path afterwards is exactly the file before
(header validation only reads). -/
theorem c10_open_preserves_disk (M V : Nat) (path : String) (disk : Option Bytes) :
    (open_ro M V path disk).2 = disk ∧ (open_rw M V path disk).2 = disk := by
  rw [open_rw_eq_open_ro]
  refine ⟨?_, ?_⟩ <;>
  · cases disk with
    | none => rfl
    | some c =>
      rcases hc : check M V path ⟨c, 0⟩ with ⟨r, f1⟩
      have hcon : f1.contents = c := by
        have hpr := check_contents M V path c
        rw [hc] at hpr
        exact hpr
      cases r with
      | error e => simp [open_ro, hc, hcon]
      | ok u => simp [open_ro, hc, hcon]

/-! ## User-visible error messages

`BinFileError` derives `Display` with `#[display(doc_comments)]`: the doc
comment of each variant is its format string.  In the source these are
`invalid magic number {actual:#10x} instead of {expected:#10x} in file
'{filename}'.` and `invalid version {actual} instead of {expected} in file
'{filename}'.` — note the trailing period, and the `#10x` format of the
magic values. -/

/-- Lowercase hexadecimal digits of `n`, as Rust's `{:x}` renders them. -/
def hex_digits (n : Nat) : String := String.mk (Nat.toDigits 16 n)

/-- Rust's `{:#10x}` format: `0x`-prefixed lowercase hexadecimal, left-padded
with spaces to a minimum width of 10 characters. -/
def fmt_hex_alt_width_10 (n : Nat) : String :=
  let s := "0x" ++ hex_digits n
  String.mk (List.replicate (10 - s.length) ' ') ++ s

/-- A single-quote character as a string (ASCII 39). -/
def squote : String := String.singleton (Char.ofNat 39)

/-- The `Display` message of a `BinFileError`: the variant's doc comment with
the fields substituted (`actual`/`expected` under `{:#10x}` for the magic,
plain decimal for the version). -/
def BinFileError.message : BinFileError → String
  | .invalidMagic filename expected actual =>
      "invalid magic number " ++ fmt_hex_alt_width_10 actual ++ " instead of " ++
        fmt_hex_alt_width_10 expected ++ " in file " ++ squote ++ filename ++
        squote ++ "."
  | .invalidVersion filename expected actual =>
      "invalid version " ++ Nat.repr actual ++ " instead of " ++
        Nat.repr expected ++ " in file " ++ squote ++ filename ++ squote ++ "."

/-- C8 counterexample: for actual 1, expected 2, path `f`, the messages are
not exactly `invalid magic number <actual-hex> instead of <expected-hex> in
file '<path>'` and `invalid version <actual> instead of <expected> in file
'<path>'`: the real messages carry a trailing period (and the magic values are
space-padded to width 10), whichever way the hex placeholders are read. -/
theorem c8_message_counterexample :
    BinFileError.message (.invalidMagic "f" 2 1) ≠
      "invalid magic number 0x1 instead of 0x2 in file " ++ squote ++ "f" ++ squote ∧
    BinFileError.message (.invalidMagic "f" 2 1) ≠
      "invalid magic number        0x1 instead of        0x2 in file " ++
        squote ++ "f" ++ squote ∧
    BinFileError.message (.invalidVersion "f" 2 1) ≠
      "invalid version 1 instead of 2 in file " ++ squote ++ "f" ++ squote ∧
    BinFileError.message (.invalidMagic "f" 2 1) =
      "invalid magic number        0x1 instead of        0x2 in file " ++
        squote ++ "f" ++ squote ++ "." ∧
    BinFileError.message (.invalidVersion "f" 2 1) =
      "invalid version 1 instead of 2 in file " ++ squote ++ "f" ++ squote ++ "." :=
  ⟨by decide, by decide, by decide, by decide, by decide⟩

/-- C8 (amended): the user-visible messages are `invalid magic number
<actual-hex> instead of <expected-hex> in file '<path>'.` and `invalid version
<actual> instead of <expected> in file '<path>'.` — each with a trailing
period, the magic values rendered as 0x-prefixed lowercase hexadecimal
space-padded to a minimum width of 10 characters, and the version values in
plain decimal — as carried by the errors `open` returns on mismatched files. -/
theorem c8_message_format (M1 M2 V1 V2 : Nat) (path : String) (rest : Bytes)
    (h1 : M1 < 2 ^ 64) (h2 : M2 < 2 ^ 64) (hM : M2 ≠ M1)
    (hv1 : V1 < 2 ^ 16) (hv2 : V2 < 2 ^ 16) (hV : V2 ≠ V1) :
    (∃ e, (open_ro M2 V1 path (some (u64_to_be_bytes M1 ++ rest))).1 =
        .error (.other e) ∧
      e.message = "invalid magic number " ++ fmt_hex_alt_width_10 M1 ++
        " instead of " ++ fmt_hex_alt_width_10 M2 ++ " in file " ++ squote ++
        path ++ squote ++ ".") ∧
    (∃ e, (open_ro M2 V2 path
          (some (u64_to_be_bytes M2 ++ (u16_to_be_bytes V1 ++ rest)))).1 =
        .error (.other e) ∧
      e.message = "invalid version " ++ Nat.repr V1 ++ " instead of " ++
        Nat.repr V2 ++ " in file " ++ squote ++ path ++ squote ++ ".") :=
  ⟨⟨.invalidMagic path M2 M1,
    (open_error_bad_magic M1 M2 V1 path rest h1 h2 hM).1, rfl⟩,
   ⟨.invalidVersion path V2 V1,
    (open_error_bad_version M2 V1 V2 path rest hv1 hv2 hV).1, rfl⟩⟩

/-- Witness for the amended C8 at magic 1 vs 2, version 1 vs 2, path `f`. -/
theorem c8_message_format_witness :
    (∃ e, (open_ro 2 1 "f" (some (u64_to_be_bytes 1 ++ []))).1 =
        .error (.other e) ∧
      e.message = "invalid magic number " ++ fmt_hex_alt_width_10 1 ++
        " instead of " ++ fmt_hex_alt_width_10 2 ++ " in file " ++ squote ++
        "f" ++ squote ++ ".") ∧
    (∃ e, (open_ro 2 2 "f"
          (some (u64_to_be_bytes 2 ++ (u16_to_be_bytes 1 ++ [])))).1 =
        .error (.other e) ∧
      e.message = "invalid version " ++ Nat.repr 1 ++ " instead of " ++
        Nat.repr 2 ++ " in file " ++ squote ++ "f" ++ squote ++ ".") :=
  c8_message_format 1 2 1 2 "f" [] (by norm_num) (by norm_num) (by norm_num)
    (by norm_num) (by norm_num) (by norm_num)

/-- C9: every Invalid-Magic or Invalid-Version failure of `open`/`open_rw`
surfaces as a generic I/O error of kind Other wrapping the structured
`BinFileError`, from which downcasting recovers the filename, expected and
actual fields. -/
theorem c9_error_layering (M V : Nat) (path : String) (c : Bytes) :
    (8 ≤ c.length → c.take 8 ≠ u64_to_be_bytes M →
      ∃ err, (open_ro M V path (some c)).1 = .error err ∧
        (open_rw M V path (some c)).1 = .error err ∧
        err.kind = .other ∧
        err.downcast_bin_file_error =
          some (.invalidMagic path M (u64_from_be_bytes (c.take 8)))) ∧
    (10 ≤ c.length → c.take 8 = u64_to_be_bytes M →
      (c.drop 8).take 2 ≠ u16_to_be_bytes V →
      ∃ err, (open_ro M V path (some c)).1 = .error err ∧
        (open_rw M V path (some c)).1 = .error err ∧
        err.kind = .other ∧
        err.downcast_bin_file_error =
          some (.invalidVersion path V (u16_from_be_bytes ((c.drop 8).take 2)))) := by
  constructor
  · intro h8 hm
    refine ⟨.other (.invalidMagic path M (u64_from_be_bytes (c.take 8))),
            ?_, ?_, rfl, rfl⟩
    · rw [open_ro_of_check_error M V path _ _ _ (check_bad_magic M V path c h8 hm)]
    · rw [open_rw_eq_open_ro,
          open_ro_of_check_error M V path _ _ _ (check_bad_magic M V path c h8 hm)]
  · intro h10 hm hv
    refine ⟨.other (.invalidVersion path V (u16_from_be_bytes ((c.drop 8).take 2))),
            ?_, ?_, rfl, rfl⟩
    · rw [open_ro_of_check_error M V path _ _ _
            (check_bad_version M V path c h10 hm hv)]
    · rw [open_rw_eq_open_ro,
          open_ro_of_check_error M V path _ _ _
            (check_bad_version M V path c h10 hm hv)]

/-- Witness for C9: a zero-magic file expecting magic 1, and a version-5 file
expecting version 1. -/
theorem c9_error_layering_witness :
    (∃ err, (open_ro 1 1 "f" (some (List.replicate 8 0))).1 = .error err ∧
      (open_rw 1 1 "f" (some (List.replicate 8 0))).1 = .error err ∧
      err.kind = .other ∧
      err.downcast_bin_file_error =
        some (.invalidMagic "f" 1
          (u64_from_be_bytes ((List.replicate 8 0 : Bytes).take 8)))) ∧
    (∃ err, (open_ro 1 1 "f"
        (some (u64_to_be_bytes 1 ++ u16_to_be_bytes 5))).1 = .error err ∧
      (open_rw 1 1 "f"
        (some (u64_to_be_bytes 1 ++ u16_to_be_bytes 5))).1 = .error err ∧
      err.kind = .other ∧
      err.downcast_bin_file_error =
        some (.invalidVersion "f" 1
          (u16_from_be_bytes
            (((u64_to_be_bytes 1 ++ u16_to_be_bytes 5).drop 8).take 2)))) :=
  ⟨(c9_error_layering 1 1 "f" (List.replicate 8 0)).1 (by norm_num) (by decide),
   (c9_error_layering 1 1 "f" (u64_to_be_bytes 1 ++ u16_to_be_bytes 5)).2
     (by decide) (by decide) (by decide)⟩
